import Mathlib

/-!
Verification development for the `gdbmi` Go library (github.com/ulrichSchreiner/gdbmi).

The definitions below are a shallow embedding of the library's source:
pure Go functions become Lean functions, Go's `interface{}` value trees
become the inductive `GoValue`, Go run-time panics and non-termination are
made explicit through the three-valued result type `Res` (loops that the
source runs without a bound take an explicit fuel argument, and exhausting
the fuel marks a diverging execution).  Machine integers (`int64`, `int`)
are modelled as `Int`; the only place Go overflow semantics are observable
is `strconv.ParseInt`, which is modelled with its explicit `2^63 - 1` bound.

Names follow the Go source (`parseValue`, `parseStruct`, `splitKVList`,
`createAsync`, `createResult`, `parseBreakpointInfo`, ...); fueled versions
carry an `F` suffix.
-/

/-- Outcome of running a piece of Go code: a value, a run-time panic, or
fuel exhaustion (the marker used for executions that the unbounded source
loop would run forever). -/
inductive Res (α : Type) where
  | ok (a : α) : Res α
  | panic : Res α
  | nofuel : Res α
deriving DecidableEq, Repr

def Res.bind {α β : Type} : Res α → (α → Res β) → Res β
  | .ok a, f => f a
  | .panic, _ => .panic
  | .nofuel, _ => .nofuel

instance : Monad Res where
  pure := Res.ok
  bind := Res.bind

/-- Go `interface{}` values produced by the value parser in `parser.go`:
strings, `gdbStruct` (a `map[string]interface{}`), `[]interface{}`, and the
untyped `nil` that `parseValue` returns for `]`. -/
inductive GoValue where
  | str (s : String) : GoValue
  | vmap (m : List (String × GoValue)) : GoValue
  | arr (a : List GoValue) : GoValue
  | vnil : GoValue

/-- Go map assignment `m[k] = v`: the newest binding shadows older ones, so
we cons it in front and look keys up front-to-back. -/
def mapAssign (m : List (String × GoValue)) (k : String) (v : GoValue) :
    List (String × GoValue) :=
  (k, v) :: m

/-- Go map read `m[k]`: `none` models the absent key (whose zero value is
the untyped `nil` interface). -/
def mapGet (m : List (String × GoValue)) (k : String) : Option GoValue :=
  (m.find? (fun p => p.1 = k)).map (fun p => p.2)

/-! ## The `text/scanner` model

`parseStructure` drives Go's `text/scanner.Scanner` in its default mode.
On the token shapes that occur in MI output this scanner skips the white
space ` `, `\t`, `\n`, `\r`, and then reads one token: a double-quoted
string literal (returned verbatim, quotes and escape sequences included),
an identifier (letter or `_`, then letters, digits, `_`), a number
(decimal digits, a `0x`/`0X` hexadecimal literal, or a decimal fraction),
or a single character.  At end of input `Scan` returns EOF and `TokenText`
returns the empty string, which we model as the token `[]` with an empty
remainder.  (Exponents, `_` digit separators, rune literals and comments
never occur in MI text and are not modelled; the scanner's error recovery
for a string literal hit by a raw newline is modelled as ending the token
at that newline.) -/

def isWS (c : Char) : Bool :=
  c = ' ' || c = '\t' || c = '\n' || c = '\r'

def isIdentStart (c : Char) : Bool :=
  c.isAlpha || c = '_'

def isIdentCont (c : Char) : Bool :=
  c.isAlpha || c.isDigit || c = '_'

def isHexDigit (c : Char) : Bool :=
  c.isDigit || ('a' ≤ c && c ≤ 'f') || ('A' ≤ c && c ≤ 'F')

/-- Body of `scanString('"')`: consume characters after the opening quote
up to and including the closing quote; a backslash escape consumes the
following character; EOF or a raw newline ends the (then malformed)
token. Returns the consumed characters and the remaining input. -/
def scanStr : List Char → (List Char × List Char)
  | [] => ([], [])
  | c :: rest =>
    if c = '"' then (['"'], rest)
    else if c = '\n' then (['\n'], rest)
    else if c = '\\' then
      match rest with
      | [] => (['\\'], [])
      | c2 :: rest2 =>
        let (t, r) := scanStr rest2
        ('\\' :: c2 :: t, r)
    else
      let (t, r) := scanStr rest
      (c :: t, r)

def takeWhileL (p : Char → Bool) : List Char → (List Char × List Char)
  | [] => ([], [])
  | c :: rest =>
    if p c then
      let (t, r) := takeWhileL p rest
      (c :: t, r)
    else ([], c :: rest)

/-- One `Scan`/`TokenText` step of the scanner: the token's text (empty at
EOF) and the rest of the input. -/
def scanTok (l : List Char) : (List Char × List Char) :=
  match l.dropWhile isWS with
  | [] => ([], [])
  | '"' :: rest =>
    let (t, r) := scanStr rest
    ('"' :: t, r)
  | c :: rest =>
    if isIdentStart c then
      let (t, r) := takeWhileL isIdentCont rest
      (c :: t, r)
    else if c.isDigit then
      match c, rest with
      | '0', 'x' :: rest2 =>
        let (t, r) := takeWhileL isHexDigit rest2
        ('0' :: 'x' :: t, r)
      | '0', 'X' :: rest2 =>
        let (t, r) := takeWhileL isHexDigit rest2
        ('0' :: 'X' :: t, r)
      | _, _ =>
        let (t, r) := takeWhileL Char.isDigit rest
        match r with
        | '.' :: r2 =>
          let (t2, r3) := takeWhileL Char.isDigit r2
          (c :: t ++ '.' :: t2, r3)
        | _ => (c :: t, r)
    else ([c], rest)

/-! ## The value parser (`parser.go`)

`parseValue`, `parseStruct`, `parseArray` and the two inner loops are
mutually recursive through the scanner state; the Go loops have no bound,
so every function takes a fuel argument and answers `Res.nofuel` when the
fuel runs out.  Run-time panics of the source (indexing `tt[0]` on the
empty EOF token, the `val.(string)` assertion in `parseArray`, the
`.(gdbStruct)` / `.([]interface{})` assertions in `parseStructure` /
`parseStructureArray`) are `Res.panic`. -/

mutual

def parseValueF : Nat → List Char → Res (GoValue × List Char)
  | 0, _ => .nofuel
  | fuel + 1, s =>
    let (tt, s) := scanTok s
    match tt with
    | ['{'] =>
      (parseStructF fuel [] s).bind (fun m => .ok (GoValue.vmap m.1, m.2))
    | ['['] =>
      (parseArrayF fuel s).bind (fun a => .ok (GoValue.arr a.1, a.2))
    | [']'] => .ok (GoValue.vnil, s)
    | ['='] => .ok (GoValue.str "=", s)
    | [','] => parseValueF fuel s
    | _ =>
      match tt with
      | [] => .panic
      | c :: _ =>
        if c = '"' then .ok (GoValue.str (String.mk ((tt.drop 1).dropLast)), s)
        else .ok (GoValue.str (String.mk tt), s)

/-- The `struct_loop` of `parseStruct`: `acc` is the map built so far. -/
def parseStructF : Nat → List (String × GoValue) → List Char →
    Res (List (String × GoValue) × List Char)
  | 0, _, _ => .nofuel
  | fuel + 1, acc, s =>
    let (key, s) := scanTok s
    let (assign, s) := scanTok s
    (structKeyLoopF fuel key assign s).bind (fun ks =>
      (parseValueF fuel ks.2).bind (fun vs =>
        let (delim, s2) := scanTok vs.2
        let acc2 := mapAssign acc (String.mk ks.1) vs.1
        if delim = ['}'] then .ok (acc2, s2)
        else parseStructF fuel acc2 s2))

/-- The inner key loop of `parseStruct`: while the token after the key is
not `=`, append it to the key and scan again (this is how keys containing
`-` are assembled). At EOF the scanner keeps returning the empty token, so
the source loops forever; the fuel makes that an explicit `nofuel`. -/
def structKeyLoopF : Nat → List Char → List Char → List Char →
    Res (List Char × List Char)
  | fuel, key, assign, s =>
    if assign = ['='] then .ok (key, s)
    else
      match fuel with
      | 0 => .nofuel
      | fuel + 1 =>
        let (t, s) := scanTok s
        structKeyLoopF fuel (key ++ assign) t s

def parseArrayF : Nat → List Char → Res (List GoValue × List Char)
  | 0, _ => .nofuel
  | fuel + 1, s =>
    (parseValueF fuel s).bind (fun vs => parseArrayLoopF fuel [] vs.1 vs.2)

/-- The loop of `parseArray`: `val` is the look-ahead value, the loop runs
while it is not `nil`.  A `key=value` element asserts `val.(string)`
(panics on a non-string) and wraps it in a one-entry map. -/
def parseArrayLoopF : Nat → List GoValue → GoValue → List Char →
    Res (List GoValue × List Char)
  | _, acc, .vnil, s => .ok (acc, s)
  | 0, _, _, _ => .nofuel
  | fuel + 1, acc, val, s =>
    (parseValueF fuel s).bind (fun nv =>
      match nv.1 with
      | .str sv =>
        if sv = "=" then
          (parseValueF fuel nv.2).bind (fun nv2 =>
            match val with
            | .str keyval =>
              (parseValueF fuel nv2.2).bind (fun nv3 =>
                parseArrayLoopF fuel
                  (acc ++ [GoValue.vmap [(keyval, nv2.1)]]) nv3.1 nv3.2)
            | _ => .panic)
        else parseArrayLoopF fuel (acc ++ [val]) nv.1 nv.2
      | _ => parseArrayLoopF fuel (acc ++ [val]) nv.1 nv.2)

end

/-- `parseStructure`: run `parseValue` on the input and assert the result
is a `gdbStruct` (the Go type assertion panics otherwise). -/
def parseStructureF (fuel : Nat) (input : String) :
    Res (List (String × GoValue)) :=
  (parseValueF fuel input.data).bind (fun vs =>
    match vs.1 with
    | .vmap m => .ok m
    | _ => .panic)

/-- `parseStructureArray`: like `parseStructure` but asserting a
`[]interface{}` result. -/
def parseStructureArrayF (fuel : Nat) (input : String) :
    Res (List GoValue) :=
  (parseValueF fuel input.data).bind (fun vs =>
    match vs.1 with
    | .arr a => .ok a
    | _ => .panic)

/-- Entry point used by the specification's `parse_value` contract: run
`parseValue` on a fragment and return the parsed value. -/
def parse_value (fuel : Nat) (input : String) : Res GoValue :=
  (parseValueF fuel input.data).bind (fun vs => .ok vs.1)

/-- A quoted-string body using only MI's legal escapes `\n`, `\t`, `\\`,
`\"`: no raw quote, backslash or newline outside an escape pair. -/
def legalBody : List Char → Bool
  | [] => true
  | c :: rest =>
    if c = '\\' then
      match rest with
      | [] => false
      | c2 :: rest2 =>
        (c2 = 'n' || c2 = 't' || c2 = '\\' || c2 = '"') && legalBody rest2
    else if c = '"' then false
    else if c = '\n' then false
    else legalBody rest

/-! ## Helpers from `gdbmi.go` used by the decoders -/

/-- `equals` compares two strings byte-wise (`bytes.Equal`). -/
def equals (s1 s2 : String) : Bool :=
  s1 = s2

/-- `mapValueAsString(m, key, def)`: the value under `key` when present
(asserting it is a string — the `v.(string)` assertion panics on a
non-string value), the default when absent. -/
def mapValueAsString (m : List (String × GoValue)) (key defv : String) :
    Res String :=
  match mapGet m key with
  | some (.str s) => .ok s
  | some _ => .panic
  | none => .ok defv

/-- `fmt.Sscanf(s, "%d", &x)` where `x` is a fresh (zero) variable: skip
leading white space, read an optional sign and decimal digits; when no
digit is found the scan fails and `x` keeps its zero value. -/
def sscanf_d (s : String) : Int :=
  let l := s.data.dropWhile isWS
  let (neg, l) :=
    match l with
    | '-' :: rest => (true, rest)
    | '+' :: rest => (false, rest)
    | _ => (false, l)
  let (ds, _) := takeWhileL Char.isDigit l
  if ds = [] then 0
  else
    let n : Int := ds.foldl (fun a c => a * 10 + (Int.ofNat (c.toNat - 48))) 0
    if neg then -n else n

/-! ## Breakpoint decoding (`breakpoint.go`) -/

inductive BreakpointType where
  | BP_breakpoint
  | BP_catchpoint
deriving DecidableEq, Repr

inductive BreakpointDispositionType where
  | BP_breakpointDisposition_delete
  | BP_breakpointDisposition_keep
deriving DecidableEq, Repr

/-- `BreakpointWithName`: the process-wide registry filled in `init()`. -/
def BreakpointWithName (n : String) : Option BreakpointType :=
  if n = "breakpoint" then some .BP_breakpoint
  else if n = "catchpoint" then some .BP_catchpoint
  else none

/-- `BreakpointDispositionWithName`: registry filled in `init()`. -/
def BreakpointDispositionWithName (n : String) :
    Option BreakpointDispositionType :=
  if n = "del" then some .BP_breakpointDisposition_delete
  else if n = "keep" then some .BP_breakpointDisposition_keep
  else none

structure Breakpoint where
  Number : String
  «Type» : BreakpointType
  Disposition : BreakpointDispositionType
  Enabled : Bool
  Address : String
  Function : String
  Filename : String
  Fullname : String
  Line : Int
  At : String
  Pending : String
  Thread : String
  Condition : String
  Ignore : Int
  Enable : Int
  Mask : String
  Pass : Int
  OriginalLocation : String
  Times : Int
  Installed : Bool
deriving DecidableEq, Repr

/-- The projection half of `parseBreakpointInfo`: build the `Breakpoint`
from the parsed tuple `binfo`.  `binfo["number"].(string)`,
`binfo["type"].(string)` and `binfo["disp"].(string)` are bare type
assertions: an absent key (nil interface) or a non-string value panics.
Every other key goes through `mapValueAsString` with the defaults of the
source. -/
def breakpointFromMap (binfo : List (String × GoValue)) :
    Res (Except String Breakpoint) :=
  (match mapGet binfo "number" with
     | some (.str s) => Res.ok s
     | _ => Res.panic).bind (fun number =>
    (match mapGet binfo "type" with
     | some (.str s) => Res.ok s
     | _ => Res.panic).bind (fun tname =>
    match BreakpointWithName tname with
    | none => .ok (.error ("unknown breakpoint-type: " ++ tname))
    | some t =>
    (match mapGet binfo "disp" with
     | some (.str s) => Res.ok s
     | _ => Res.panic).bind (fun dname =>
    match BreakpointDispositionWithName dname with
    | none => .ok (.error ("unknown breakpoint-disposition-type: " ++ dname))
    | some d =>
    (mapValueAsString binfo "enabled" "n").bind (fun enabled =>
    (mapValueAsString binfo "addr" "").bind (fun addr =>
    (mapValueAsString binfo "func" "").bind (fun fn =>
    (mapValueAsString binfo "filename" "").bind (fun filename =>
    (mapValueAsString binfo "fullname" "").bind (fun fullname =>
    (mapValueAsString binfo "line" "0").bind (fun line =>
    (mapValueAsString binfo "at" "").bind (fun at_ =>
    (mapValueAsString binfo "pending" "").bind (fun pending =>
    (mapValueAsString binfo "thread" "").bind (fun thread =>
    (mapValueAsString binfo "cond" "").bind (fun cond =>
    (mapValueAsString binfo "ignore" "0").bind (fun ignore =>
    (mapValueAsString binfo "enable" "0").bind (fun enable =>
    (mapValueAsString binfo "mask" "").bind (fun mask =>
    (mapValueAsString binfo "pass" "0").bind (fun pass =>
    (mapValueAsString binfo "original-location" "0").bind (fun oloc =>
    (mapValueAsString binfo "times" "0").bind (fun times =>
    (mapValueAsString binfo "installed" "n").bind (fun installed =>
    .ok (.ok {
      Number := number
      «Type» := t
      Disposition := d
      Enabled := equals "y" enabled
      Address := addr
      Function := fn
      Filename := filename
      Fullname := fullname
      Line := sscanf_d line
      At := at_
      Pending := pending
      Thread := thread
      Condition := cond
      Ignore := sscanf_d ignore
      Enable := sscanf_d enable
      Mask := mask
      Pass := sscanf_d pass
      OriginalLocation := oloc
      Times := sscanf_d times
      Installed := equals "y" installed })))))))))))))))))))))

/-- `parseBreakpointInfo(info)`: parse the tuple with `parseStructure`,
then project it with `breakpointFromMap`. -/
def parseBreakpointInfoF (fuel : Nat) (info : String) :
    Res (Except String Breakpoint) :=
  (parseStructureF fuel info).bind breakpointFromMap

/-! ## The line classifier (`parse_gdb_output` in `gdbmi.go`)

Each stdout line (read up to `\n` and trimmed) is first tested against the
delimiter regex `\(gdb\)` — an **unanchored** substring test — and skipped
when it matches.  Otherwise all seven response regexes are tried and one
record is emitted per matching regex; when none matches, the raw line is
emitted as a `gdb_target_output`.

The seven regexes all have the shape `^(?P<token>\d*)X(?P<message>.*)` (for
`X` one of `^ = * +`) or `^X(?P<message>.*)` (for `X` one of `~ @ &`).  On
the newline-free lines the reader produces, the first shape matches exactly
when the character following the leading run of decimal digits is `X`, with
`token` that digit run and `message` the remainder after `X`; the second
matches exactly when the first character is `X`. -/

/-- `^(\d*)X...` matching: some prefix of leading digits is followed by the
sentinel character `c`. -/
def matchTokC (c : Char) : List Char → Bool
  | [] => false
  | d :: rest => d = c || (d.isDigit && matchTokC c rest)

/-- `^X...` matching: the first character is the sentinel `c`. -/
def matchHeadC (c : Char) (l : List Char) : Bool :=
  match l with
  | [] => false
  | d :: _ => d = c

def startsWithL : List Char → List Char → Bool
  | [], _ => true
  | _ :: _, [] => false
  | p :: ps, c :: cs => p = c && startsWithL ps cs

/-- Unanchored regex containment of a literal pattern. -/
def hasSubstrL (pat : List Char) : List Char → Bool
  | [] => startsWithL pat []
  | c :: t => startsWithL pat (c :: t) || hasSubstrL pat t

/-- The delimiter regex `\(gdb\)` — unanchored, so it matches every line
that merely contains `(gdb)` somewhere. -/
def gdb_delim_match (s : String) : Bool :=
  hasSubstrL "(gdb)".data s.data

/-- `strconv.ParseInt(tok, 10, 64)` on a string of decimal digits:
`none` models the overflow error beyond `2^63 - 1`. -/
def parseInt64 (ds : List Char) : Option Int :=
  let n : Nat := ds.foldl (fun a c => a * 10 + (c.toNat - 48)) 0
  if n ≤ 9223372036854775807 then some (Int.ofNat n) else none

/-- The parsed records (`gdb_response` implementations).  `gdb_ready` is
never constructed: the delimiter branch of `parse_gdb_output` skips the
line without creating a record. -/
inductive GdbResp where
  | result (token : Int) (line : String)
  | consoleOut (line : String)
  | targetOut (line : String)
  | logOut (line : String)
  | async (token : Int) (line : String)
deriving DecidableEq, Repr

/-- `gdb_output.Create` for a tokenised regex: extract the `token` and
`message` groups and run `gdb_response_type.Fill`.  `Fill` parses a
non-empty token with `ParseInt`; on a parse error it returns early, so the
record keeps token `0` and an empty line (`Create` ignores the error). -/
def mkTokenized (mk : Int → String → GdbResp) (s : String) : GdbResp :=
  let tok := s.data.takeWhile Char.isDigit
  let msg := String.mk ((s.data.dropWhile Char.isDigit).drop 1)
  if tok = [] then mk 0 msg
  else
    match parseInt64 tok with
    | some t => mk t msg
    | none => mk 0 ""

/-- `gdb_output.Create` for a sentinel-only regex: `message` is everything
after the one-character sentinel, and `Fill` sees no token field. -/
def mkStream (mk : String → GdbResp) (s : String) : GdbResp :=
  mk (String.mk (s.data.drop 1))

/-- One entry of the `gdb_responses` table: the compiled regex (as its
match function) together with its record creator. -/
structure GdbOutput where
  regexMatch : String → Bool
  create : String → GdbResp

def result_record : GdbOutput :=
  ⟨fun s => matchTokC '^' s.data, mkTokenized GdbResp.result⟩

def console_output : GdbOutput :=
  ⟨fun s => matchHeadC '~' s.data, mkStream GdbResp.consoleOut⟩

def target_output : GdbOutput :=
  ⟨fun s => matchHeadC '@' s.data, mkStream GdbResp.targetOut⟩

def log_output : GdbOutput :=
  ⟨fun s => matchHeadC '&' s.data, mkStream GdbResp.logOut⟩

def notify_async_output : GdbOutput :=
  ⟨fun s => matchTokC '=' s.data, mkTokenized GdbResp.async⟩

def exec_async_output : GdbOutput :=
  ⟨fun s => matchTokC '*' s.data, mkTokenized GdbResp.async⟩

def status_async_output : GdbOutput :=
  ⟨fun s => matchTokC '+' s.data, mkTokenized GdbResp.async⟩

def gdb_responses : List GdbOutput :=
  [result_record, console_output, target_output, log_output,
   notify_async_output, exec_async_output, status_async_output]

/-- The per-line body of `parse_gdb_output`: `none` when the delimiter
regex matched (the line is skipped), otherwise the records sent on the
result channel — one per matching regex, or the raw line as a
`gdb_target_output` when nothing matched. -/
def parse_gdb_output_line (s : String) : Option (List GdbResp) :=
  if gdb_delim_match s then none
  else
    let emitted := (gdb_responses.filter (fun g => g.regexMatch s)).map
      (fun g => g.create s)
    some (if emitted = [] then [GdbResp.targetOut s] else emitted)

/-! ## The result decoder (`createResult`, `gdbsend` in `gdbmi.go`) -/

inductive GDBResultType where
  | Result_done
  | Result_running
  | Result_connected
  | Result_error
  | Result_exit
deriving DecidableEq, Repr

/-- `GDBResultType.String()` through the `allResultTypes` registry. -/
def resultTypeName : GDBResultType → String
  | .Result_done => "done"
  | .Result_running => "running"
  | .Result_connected => "connected"
  | .Result_error => "error"
  | .Result_exit => "exit"

structure GDBResult where
  «Type» : GDBResultType
  Results : String
  ErrorMessage : String
deriving DecidableEq, Repr

/-- `strings.SplitN(s, ",", 2)`: the part before the first comma, and the
rest after it when a comma exists. -/
def splitN2Comma : List Char → (List Char × Option (List Char))
  | [] => ([], none)
  | ',' :: t => ([], some t)
  | c :: t =>
    let (a, b) := splitN2Comma t
    (c :: a, b)

/-- `createResult`: classify the result line by its class prefix; for
`done` keep the raw remainder after the first comma in `Results`, for
`error` keep it in `ErrorMessage` (no unquoting, no `msg=` stripping). -/
def createResult (line : String) : Except String GDBResult :=
  if startsWithL (resultTypeName .Result_done).data line.data then
    let parts := splitN2Comma line.data
    .ok { «Type» := .Result_done,
          Results := (parts.2.map String.mk).getD "",
          ErrorMessage := "" }
  else if startsWithL (resultTypeName .Result_running).data line.data then
    .ok { «Type» := .Result_running, Results := "", ErrorMessage := "" }
  else if startsWithL (resultTypeName .Result_connected).data line.data then
    .ok { «Type» := .Result_connected, Results := "", ErrorMessage := "" }
  else if startsWithL (resultTypeName .Result_error).data line.data then
    let parts := splitN2Comma line.data
    .ok { «Type» := .Result_error,
          Results := "",
          ErrorMessage := (parts.2.map String.mk).getD "" }
  else if startsWithL (resultTypeName .Result_exit).data line.data then
    .ok { «Type» := .Result_exit, Results := "", ErrorMessage := "" }
  else
    .error ("unknown result indication '" ++ line ++ "'")

/-- The receiving half of `gdbsend`, applied to the record delivered on the
command's reply channel: the `rsp.(*gdb_result)` assertion panics on any
other record kind; a `Result_error` outcome becomes an error carrying
`ErrorMessage` verbatim. -/
def gdbsend_receive (rsp : GdbResp) : Res (Except String GDBResult) :=
  match rsp with
  | .result _ ln =>
    match createResult ln with
    | .ok result =>
      if result.«Type» = .Result_error then .ok (.error result.ErrorMessage)
      else .ok (.ok result)
    | .error e => .ok (.error e)
  | _ => .panic

/-! ## The async decoder (`splitKVList`, `createAsync` in `gdbmi.go`) -/

inductive GDBAsyncType where
  | Async_unknown
  | Async_running
  | Async_stopped
  | Async_thread_group_added
  | Async_thread_group_removed
  | Async_thread_group_started
  | Async_thread_group_exited
  | Async_thread_created
  | Async_thread_exited
  | Async_thread_selected
  | Async_library_loaded
  | Async_library_unloaded
  | Async_traceframe_changed
  | Async_tsv_created
  | Async_tsv_deleted
  | Async_tsv_modified
  | Async_breakpoint_created
  | Async_breakpoint_modified
  | Async_breakpoint_deleted
  | Async_record_started
  | Async_record_stopped
  | Async_cmd_param_changed
  | Async_memory_changed
deriving DecidableEq, Repr

/-- `AsyncTypeWithName` through the `allAsyncTypes` registry filled in
`init()` (note: `Async_unknown` is never registered). -/
def AsyncTypeWithName (n : String) : Option GDBAsyncType :=
  if n = "running" then some .Async_running
  else if n = "stopped" then some .Async_stopped
  else if n = "thread-group-added" then some .Async_thread_group_added
  else if n = "thread-group-removed" then some .Async_thread_group_removed
  else if n = "thread-group-started" then some .Async_thread_group_started
  else if n = "thread-group-exited" then some .Async_thread_group_exited
  else if n = "thread-created" then some .Async_thread_created
  else if n = "thread-exited" then some .Async_thread_exited
  else if n = "thread-selected" then some .Async_thread_selected
  else if n = "library-loaded" then some .Async_library_loaded
  else if n = "library-unloaded" then some .Async_library_unloaded
  else if n = "traceframe-changed" then some .Async_traceframe_changed
  else if n = "tsv-created" then some .Async_tsv_created
  else if n = "tsv-deleted" then some .Async_tsv_deleted
  else if n = "tsv-modified" then some .Async_tsv_modified
  else if n = "breakpoint-created" then some .Async_breakpoint_created
  else if n = "breakpoint-modified" then some .Async_breakpoint_modified
  else if n = "breakpoint-deleted" then some .Async_breakpoint_deleted
  else if n = "record-started" then some .Async_record_started
  else if n = "record-stopped" then some .Async_record_stopped
  else if n = "cmd-param-changed" then some .Async_cmd_param_changed
  else if n = "memory-changed" then some .Async_memory_changed
  else none

/-- `asyncTypeFromString`: unregistered names map to `Async_unknown`. -/
def asyncTypeFromString (tp : String) : GDBAsyncType :=
  (AsyncTypeWithName tp).getD .Async_unknown

/-- `GDBAsyncType.String()`: the reverse registry; `Async_unknown` was
never added, so its name is the map's zero value `""`. -/
def asyncTypeName : GDBAsyncType → String
  | .Async_unknown => ""
  | .Async_running => "running"
  | .Async_stopped => "stopped"
  | .Async_thread_group_added => "thread-group-added"
  | .Async_thread_group_removed => "thread-group-removed"
  | .Async_thread_group_started => "thread-group-started"
  | .Async_thread_group_exited => "thread-group-exited"
  | .Async_thread_created => "thread-created"
  | .Async_thread_exited => "thread-exited"
  | .Async_thread_selected => "thread-selected"
  | .Async_library_loaded => "library-loaded"
  | .Async_library_unloaded => "library-unloaded"
  | .Async_traceframe_changed => "traceframe-changed"
  | .Async_tsv_created => "tsv-created"
  | .Async_tsv_deleted => "tsv-deleted"
  | .Async_tsv_modified => "tsv-modified"
  | .Async_breakpoint_created => "breakpoint-created"
  | .Async_breakpoint_modified => "breakpoint-modified"
  | .Async_breakpoint_deleted => "breakpoint-deleted"
  | .Async_record_started => "record-started"
  | .Async_record_stopped => "record-stopped"
  | .Async_cmd_param_changed => "cmd-param-changed"
  | .Async_memory_changed => "memory-changed"

/-- The stop reasons.  Go's `iota` numbering across the shared `const`
block makes the zero value of `GDBStopReason` distinct from every named
reason, so the zero value of an event's `StopReason` field gets its own
constructor `StopReason_zero`. -/
inductive GDBStopReason where
  | StopReason_zero
  | Async_stopped_breakpoint_hit
  | Async_stopped_watchpoint_trigger
  | Async_stopped_read_watchpoint_trigger
  | Async_stopped_access_watchpoint_trigger
  | Async_stopped_function_finished
  | Async_stopped_location_reached
  | Async_stopped_watchpoint_scope
  | Async_stopped_end_stepping_range
  | Async_stopped_exited_signalled
  | Async_stopped_exited
  | Async_stopped_exited_normally
  | Async_stopped_signal_received
  | Async_stopped_solib_event
  | Async_stopped_fork
  | Async_stopped_vfork
  | Async_stopped_syscall_entry
  | Async_stopped_exec
deriving DecidableEq, Repr

/-- `StopReasonWithName` through the `allStopReasons` registry. -/
def StopReasonWithName (n : String) : Option GDBStopReason :=
  if n = "breakpoint-hit" then some .Async_stopped_breakpoint_hit
  else if n = "watchpoint-trigger" then some .Async_stopped_watchpoint_trigger
  else if n = "read-watchpoint-trigger" then some .Async_stopped_read_watchpoint_trigger
  else if n = "access-watchpoint-trigger" then some .Async_stopped_access_watchpoint_trigger
  else if n = "function-finished" then some .Async_stopped_function_finished
  else if n = "location-reached" then some .Async_stopped_location_reached
  else if n = "watchpoint-scope" then some .Async_stopped_watchpoint_scope
  else if n = "end-stepping-range" then some .Async_stopped_end_stepping_range
  else if n = "exited-signalled" then some .Async_stopped_exited_signalled
  else if n = "exited" then some .Async_stopped_exited
  else if n = "exited-normally" then some .Async_stopped_exited_normally
  else if n = "signal-received" then some .Async_stopped_signal_received
  else if n = "solib-event" then some .Async_stopped_solib_event
  else if n = "fork" then some .Async_stopped_fork
  else if n = "vfork" then some .Async_stopped_vfork
  else if n = "syscall-entry" then some .Async_stopped_syscall_entry
  else if n = "exec" then some .Async_stopped_exec
  else none

structure GDBEvent where
  «Type» : GDBAsyncType
  StopReason : GDBStopReason
  ThreadId : String
  ThreadGroupid : String
  StoppedThreads : String
  StopCore : String
  Pid : Int
  ExitCode : Int
  TraceFrameNumber : Int
  TracePointNumber : Int
  TsvName : String
  TsvValue : String
  TsvInitial : String
  CmdParam : String
  CmdValue : String
  MemoryAddress : Int
  MemoryLen : Int
  MemoryTypeCode : Bool
  BreakpointNumber : String
deriving DecidableEq, Repr

/-- `var result GDBEvent` with `result.Type` assigned: everything else at
its Go zero value. -/
def zeroEvent (t : GDBAsyncType) : GDBEvent :=
  { «Type» := t, StopReason := .StopReason_zero, ThreadId := "",
    ThreadGroupid := "", StoppedThreads := "", StopCore := "", Pid := 0,
    ExitCode := 0, TraceFrameNumber := 0, TracePointNumber := 0,
    TsvName := "", TsvValue := "", TsvInitial := "", CmdParam := "",
    CmdValue := "", MemoryAddress := 0, MemoryLen := 0,
    MemoryTypeCode := false, BreakpointNumber := "" }

/-- `strings.Split(l, [c])` for a one-character separator: never empty. -/
def splitOnChar (c : Char) : List Char → List (List Char)
  | [] => [[]]
  | x :: t =>
    if x = c then [] :: splitOnChar c t
    else
      match splitOnChar c t with
      | h :: r => (x :: h) :: r
      | [] => [[x]]

/-- Go string-map read: the zero value `""` for a missing key. -/
def smapGet (m : List (String × String)) (k : String) : String :=
  ((m.find? (fun p => p.1 = k)).map (fun p => p.2)).getD ""

/-- Go two-result map read `_, ok := m[k]`. -/
def smapHas (m : List (String × String)) (k : String) : Bool :=
  (m.find? (fun p => p.1 = k)).isSome

/-- The loop of `splitKVList` over the comma-separated parts, building the
map `m`: split each part on `=`, slice the first and last byte off the
value.  `kv[1]` panics (index out of range) when a part contains no `=`;
the `[1:len-1]` slice panics when the value part is shorter than two
bytes (a Go panic aborts the loop). -/
def splitKVListGo : List (List Char) → List (String × String) →
    Res (List (String × String))
  | [], m => .ok m
  | p :: rest, m =>
    match splitOnChar '=' p with
    | k :: v1 :: _ =>
      if v1.length < 2 then .panic
      else splitKVListGo rest ((String.mk k, String.mk ((v1.drop 1).dropLast)) :: m)
    | _ => .panic

/-- `splitKVList`: split the payload on **every** comma and run the
part-by-part loop on an empty map. -/
def splitKVList (kvlist : List Char) : Res (List (String × String)) :=
  splitKVListGo (splitOnChar ',' kvlist) []

/-- Index of the last `"` in a list, if any. -/
def lastQuoteIdx : List Char → Option Nat
  | [] => none
  | c :: t =>
    match lastQuoteIdx t with
    | some j => some (j + 1)
    | none => if c = '"' then some 0 else none

/-- The replacement `async_running_line.ReplaceAllString(line, "$1")` for
the regex `running,thread-id="(.*)"`, modelled for a match starting at the
first byte — the shape the `Async_running` case always receives, since the
decoded line begins with the class name.  The greedy `(.*)` captures up to
the **last** quote of the line; what follows that quote is kept (e.g.
`running,thread-id="1"x` becomes `1x`).  Without a closing quote the regex
does not match and the line is returned unchanged. -/
def async_running_line_replace (line : String) : String :=
  let pat := "running,thread-id=\"".data
  let l := line.data
  if startsWithL pat l then
    match lastQuoteIdx (l.drop pat.length) with
    | some j =>
      String.mk ((l.drop pat.length).take j ++ (l.drop pat.length).drop (j + 1))
    | none => line
  else line

/-- `createAsync`: split off the class, slice the payload after
`len(class.String())+1` bytes (a panic when the line is shorter; for an
unrecognised class the name is `""`, so only the first byte is dropped),
run the naive `splitKVList`, then fill the event per class.  Classes
without a `case` (including the registered `breakpoint-*` trio) fall to
`default` and return the `unknown async message` error. -/
def createAsync (line : String) : Res (Except String GDBEvent) :=
  let toks0 := (splitN2Comma line.data).1
  let t := asyncTypeFromString (String.mk toks0)
  let cut := (asyncTypeName t).length + 1
  if line.data.length < cut then .panic
  else
    (splitKVList (line.data.drop cut)).bind (fun params =>
      match t with
      | .Async_running =>
        .ok (.ok { zeroEvent t with
          ThreadId := async_running_line_replace line })
      | .Async_stopped =>
        let reason := smapGet params "reason"
        match StopReasonWithName reason with
        | none => .ok (.error ("Error: unknown stopreaseon: " ++ reason))
        | some sr =>
          .ok (.ok { zeroEvent t with
            ThreadId := smapGet params "thread-id",
            StoppedThreads := smapGet params "stopped-threads",
            StopCore := smapGet params "core",
            StopReason := sr })
      | .Async_thread_group_started =>
        .ok (.ok { zeroEvent t with
          ThreadGroupid := smapGet params "id",
          Pid := sscanf_d (smapGet params "pid") })
      | .Async_thread_group_exited =>
        .ok (.ok { zeroEvent t with
          ThreadGroupid := smapGet params "id",
          ExitCode := sscanf_d (smapGet params "exit-code") })
      | .Async_thread_exited =>
        .ok (.ok { zeroEvent t with
          ThreadId := smapGet params "id",
          ThreadGroupid := smapGet params "gid" })
      | .Async_thread_created =>
        .ok (.ok { zeroEvent t with
          ThreadId := smapGet params "id",
          ThreadGroupid := smapGet params "gid" })
      | .Async_thread_selected =>
        .ok (.ok { zeroEvent t with
          ThreadId := smapGet params "id",
          ThreadGroupid := smapGet params "gid" })
      | .Async_thread_group_added =>
        .ok (.ok { zeroEvent t with ThreadGroupid := smapGet params "id" })
      | .Async_thread_group_removed =>
        .ok (.ok { zeroEvent t with ThreadGroupid := smapGet params "id" })
      | .Async_library_loaded => .ok (.ok (zeroEvent t))
      | .Async_library_unloaded => .ok (.ok (zeroEvent t))
      | .Async_traceframe_changed =>
        .ok (.ok { zeroEvent t with
          TraceFrameNumber := sscanf_d (smapGet params "num"),
          TracePointNumber := sscanf_d (smapGet params "tracepoint") })
      | .Async_tsv_created =>
        .ok (.ok { zeroEvent t with
          TsvName := smapGet params "name",
          TsvInitial := smapGet params "initial",
          TsvValue := smapGet params "current" })
      | .Async_tsv_deleted =>
        .ok (.ok { zeroEvent t with
          TsvName := smapGet params "name",
          TsvInitial := smapGet params "initial",
          TsvValue := smapGet params "current" })
      | .Async_tsv_modified =>
        .ok (.ok { zeroEvent t with
          TsvName := smapGet params "name",
          TsvInitial := smapGet params "initial",
          TsvValue := smapGet params "current" })
      | .Async_record_started =>
        .ok (.ok { zeroEvent t with
          ThreadGroupid := smapGet params "thread-group" })
      | .Async_record_stopped =>
        .ok (.ok { zeroEvent t with
          ThreadGroupid := smapGet params "thread-group" })
      | .Async_cmd_param_changed =>
        .ok (.ok { zeroEvent t with
          CmdParam := smapGet params "param",
          CmdValue := smapGet params "value" })
      | .Async_memory_changed =>
        -- the two `Sscanf` calls pass the int fields by value, so
        -- `MemoryAddress` and `MemoryLen` are never written
        .ok (.ok { zeroEvent t with
          ThreadGroupid := smapGet params "thread-group",
          MemoryTypeCode := smapHas params "type" })
      | _ => .ok (.error ("unknown async message: " ++ line)))

/-! ## The coordinator goroutine of `startupGDB` and the token generator

The goroutine keeps `open_commands : map[int64]*gdb_command` and handles,
in arrival order: a submitted command (write it to stdin and store it
under its token — entries are never deleted) or a record from the reader.
A `gdb_result` is sent to the reply channel of the command stored under
its token (silently dropped when no command is stored); `gdb_console_output`
has an empty case and is discarded; `gdb_target_output` is published on
the `Target` channel; `gdb_log_output` is printed; a `gdb_async` is decoded
with `createAsync` and published on the `Event` channel unless the decoder
returned an error (then it is silently dropped) — a decoder panic kills the
process.  (The source publishes each event from a freshly spawned
goroutine; we record the multiset of published items in emission order.) -/

structure CoordSt where
  pending : List (Int × Nat)
  delivered : List (Int × Nat)
  target : List String
  events : List GDBEvent
  logs : List String
deriving DecidableEq, Repr

def coordInit : CoordSt :=
  { pending := [], delivered := [], target := [], events := [], logs := [] }

/-- One input of the coordinator's `select`: a command submitted on the
`commands` channel (identified by the caller-side id of its reply channel)
or a record from the reader. -/
inductive CoordIn where
  | cmd (token : Int) (cid : Nat)
  | re (r : GdbResp)
deriving DecidableEq, Repr

def coordStep (st : CoordSt) (i : CoordIn) : Res CoordSt :=
  match i with
  | .cmd t cid => .ok { st with pending := (t, cid) :: st.pending }
  | .re r =>
    match r with
    | .result t _ =>
      match (st.pending.find? (fun p => p.1 = t)).map (fun p => p.2) with
      | some cid => .ok { st with delivered := st.delivered ++ [(t, cid)] }
      | none => .ok st
    | .consoleOut _ => .ok st
    | .targetOut ln => .ok { st with target := st.target ++ [ln] }
    | .logOut ln => .ok { st with logs := st.logs ++ [ln] }
    | .async _ ln =>
      match createAsync ln with
      | .ok (.ok ev) => .ok { st with events := st.events ++ [ev] }
      | .ok (.error _) => .ok st
      | .panic => .panic
      | .nofuel => .nofuel

def coordRun : CoordSt → List CoordIn → Res CoordSt
  | st, [] => .ok st
  | st, i :: is =>
    match coordStep st i with
    | .ok st2 => coordRun st2 is
    | .panic => .panic
    | .nofuel => .nofuel

/-- `timetokenGenerator`, the default `tokenGenerator`: it returns
`time.Now().UnixNano()`, i.e. exactly the wall-clock reading at the moment
of the call — no counter, no state. -/
def timetokenGenerator (nowUnixNano : Int) : Int :=
  nowUnixNano

structure gdb_command where
  token : Int
  cmd : String
  parameter : List String
  options : List String
deriving DecidableEq, Repr

/-- `newCommand`: the token is whatever the generator returns for the
wall-clock reading at submission time. -/
def newCommand (nowUnixNano : Int) (cmd : String) : gdb_command :=
  { token := timetokenGenerator nowUnixNano, cmd := cmd,
    parameter := [], options := [] }

/-- `dump_mi`: the wire form `TOKEN-OPERATION OPTIONS PARAMS`. -/
def dump_mi (c : gdb_command) : String :=
  toString c.token ++ "-" ++ c.cmd ++ " " ++
    String.intercalate " " c.options ++ " " ++
    String.intercalate " " c.parameter

/-- The tokens a session writes on the wire when the default generator is
called once per submission, given the wall-clock readings it observes. -/
def sessionTokens (clock : List Int) : List Int :=
  clock.map timetokenGenerator

/-- The command bearing token `t` among the submitted commands (each
command identified by the id of its reply channel). -/
def tokenOwner (cmds : List (Int × Nat)) (t : Int) : Nat :=
  ((cmds.find? (fun p => p.1 = t)).map (fun p => p.2)).getD 0

/-! ## Theorems -/

theorem structKeyLoopF_eof : ∀ fuel key,
    structKeyLoopF fuel key [] [] = .nofuel := by
  intro fuel
  induction fuel with
  | zero => intro key; simp [structKeyLoopF]
  | succ f ih =>
    intro key
    simp only [structKeyLoopF, scanTok]
    simpa using ih key

theorem structKeyLoopF_rbrace : ∀ fuel key,
    structKeyLoopF fuel key ['}'] [] = .nofuel := by
  intro fuel key
  cases fuel with
  | zero => simp [structKeyLoopF]
  | succ f =>
    simp only [structKeyLoopF, scanTok]
    simpa using structKeyLoopF_eof f (key ++ ['}'])

theorem structKeyLoopF_b_rbrace : ∀ fuel key,
    structKeyLoopF fuel key ['b'] ['}'] = .nofuel := by
  intro fuel key
  cases fuel with
  | zero => simp [structKeyLoopF]
  | succ f =>
    simp only [structKeyLoopF, scanTok]
    simpa using structKeyLoopF_rbrace f (key ++ ['b'])

/-- C5: the claim says that on unbalanced brackets or a missing `=` the
value parser terminates and fails with a `MalformedValue{offset,reason}`
error.  The code has no such error value at all: on the missing `=` of
`{a b}` the key loop of `parseStruct` re-reads the empty EOF token forever
(for every fuel bound the fueled embedding reports fuel exhaustion), and
on the unbalanced `{a=` the next `parseValue` call indexes the empty EOF
token and panics. -/
theorem gdbmi_c5_parser_diverges :
    (∀ fuel, parseStructureF fuel "\x7ba b\x7d" = .nofuel) ∧
      parseStructureF 9 "\x7ba=" = .panic := by
  constructor
  · intro fuel
    match fuel with
    | 0 => rfl
    | 1 => rfl
    | (m + 2) =>
      change ((((structKeyLoopF m ['a'] ['b'] ['}']).bind _).bind _).bind _) = Res.nofuel
      rw [structKeyLoopF_b_rbrace m ['a']]
      rfl
  · rfl

/-- C9 counterexample: the claim says the breakpoint decoder returns a
`Breakpoint` even when `number`, `type` or `disp` are absent; on a tuple
without `number` the bare `binfo["number"].(string)` assertion panics. -/
theorem gdbmi_c9_counterexample :
    parseBreakpointInfoF 32 "\x7btype=\"breakpoint\",disp=\"keep\",addr=\"0x1\"\x7d" =
      .panic := by
  rfl

/-- C9 (amended): over every parsed tuple, the breakpoint decoder treats
`number`, `type` and `disp` as required — it panics on its bare
`binfo[key].(string)` assertion when `number` is absent, when `type` is
absent, or when `disp` is absent while `type` is recognised, and returns
an `unknown breakpoint-type` / `unknown breakpoint-disposition-type`
error for a present but unregistered `type` / `disp` value — while every
other key falls back to its default when absent: the empty string for the
string fields except `original-location` (whose default is `"0"`), `0`
for the integer fields, `false` for the booleans. -/
theorem gdbmi_c9_breakpoint_defaults :
    (∀ binfo : List (String × GoValue), mapGet binfo "number" = none →
      breakpointFromMap binfo = .panic) ∧
    (∀ (binfo : List (String × GoValue)) (number : String),
      mapGet binfo "number" = some (.str number) →
      mapGet binfo "type" = none →
      breakpointFromMap binfo = .panic) ∧
    (∀ (binfo : List (String × GoValue)) (number tname : String)
        (t : BreakpointType),
      mapGet binfo "number" = some (.str number) →
      mapGet binfo "type" = some (.str tname) →
      BreakpointWithName tname = some t →
      mapGet binfo "disp" = none →
      breakpointFromMap binfo = .panic) ∧
    (∀ (binfo : List (String × GoValue)) (number tname : String),
      mapGet binfo "number" = some (.str number) →
      mapGet binfo "type" = some (.str tname) →
      BreakpointWithName tname = none →
      breakpointFromMap binfo =
        .ok (.error ("unknown breakpoint-type: " ++ tname))) ∧
    (∀ (binfo : List (String × GoValue)) (number tname dname : String)
        (t : BreakpointType),
      mapGet binfo "number" = some (.str number) →
      mapGet binfo "type" = some (.str tname) →
      BreakpointWithName tname = some t →
      mapGet binfo "disp" = some (.str dname) →
      BreakpointDispositionWithName dname = none →
      breakpointFromMap binfo =
        .ok (.error ("unknown breakpoint-disposition-type: " ++ dname))) ∧
    (∀ (binfo : List (String × GoValue)) (number tname dname : String)
        (t : BreakpointType) (d : BreakpointDispositionType),
      mapGet binfo "number" = some (.str number) →
      mapGet binfo "type" = some (.str tname) →
      BreakpointWithName tname = some t →
      mapGet binfo "disp" = some (.str dname) →
      BreakpointDispositionWithName dname = some d →
      mapGet binfo "enabled" = none →
      mapGet binfo "addr" = none →
      mapGet binfo "func" = none →
      mapGet binfo "filename" = none →
      mapGet binfo "fullname" = none →
      mapGet binfo "line" = none →
      mapGet binfo "at" = none →
      mapGet binfo "pending" = none →
      mapGet binfo "thread" = none →
      mapGet binfo "cond" = none →
      mapGet binfo "ignore" = none →
      mapGet binfo "enable" = none →
      mapGet binfo "mask" = none →
      mapGet binfo "pass" = none →
      mapGet binfo "original-location" = none →
      mapGet binfo "times" = none →
      mapGet binfo "installed" = none →
      breakpointFromMap binfo = .ok (.ok
        { Number := number, «Type» := t, Disposition := d, Enabled := false,
          Address := "", Function := "", Filename := "", Fullname := "",
          Line := 0, At := "", Pending := "", Thread := "", Condition := "",
          Ignore := 0, Enable := 0, Mask := "", Pass := 0,
          OriginalLocation := "0", Times := 0, Installed := false })) := by
  refine ⟨?_, ?_, ?_, ?_, ?_, ?_⟩
  · intro binfo h
    simp [breakpointFromMap, h, Res.bind]
  · intro binfo number hn ht2
    simp [breakpointFromMap, hn, ht2, Res.bind]
  · intro binfo number tname t hn htp ht hd
    simp [breakpointFromMap, hn, htp, ht, hd, Res.bind]
  · intro binfo number tname hn htp ht
    simp [breakpointFromMap, hn, htp, ht, Res.bind]
  · intro binfo number tname dname t hn htp ht hd hdd
    simp [breakpointFromMap, hn, htp, ht, hd, hdd, Res.bind]
  · intro binfo number tname dname t d hn htp ht hd hdd h1 h2 h3 h4 h5 h6
      h7 h8 h9 h10 h11 h12 h13 h14 h15 h16 h17
    simp only [breakpointFromMap, hn, htp, ht, hd, hdd, mapValueAsString,
      h1, h2, h3, h4, h5, h6, h7, h8, h9, h10, h11, h12, h13, h14, h15,
      h16, h17, Res.bind]
    rfl

/-- Witness for the C9 theorem at the three-entry tuple
`number="1", type="breakpoint", disp="keep"` (the success branch with
every optional key absent; the counterexample exhibits a panicking
branch). -/
theorem gdbmi_c9_witness :
    (mapGet [("number", GoValue.str "1"), ("type", GoValue.str "breakpoint"),
        ("disp", GoValue.str "keep")] "number" = some (.str "1") ∧
     BreakpointWithName "breakpoint" = some .BP_breakpoint ∧
     BreakpointDispositionWithName "keep" =
       some .BP_breakpointDisposition_keep ∧
     mapGet [("number", GoValue.str "1"), ("type", GoValue.str "breakpoint"),
        ("disp", GoValue.str "keep")] "addr" = none) ∧
    breakpointFromMap [("number", GoValue.str "1"),
        ("type", GoValue.str "breakpoint"), ("disp", GoValue.str "keep")] =
      .ok (.ok
        { Number := "1", «Type» := .BP_breakpoint,
          Disposition := .BP_breakpointDisposition_keep, Enabled := false,
          Address := "", Function := "", Filename := "", Fullname := "",
          Line := 0, At := "", Pending := "", Thread := "", Condition := "",
          Ignore := 0, Enable := 0, Mask := "", Pass := 0,
          OriginalLocation := "0", Times := 0, Installed := false }) :=
  ⟨⟨rfl, rfl, rfl, rfl⟩,
    gdbmi_c9_breakpoint_defaults.2.2.2.2.2
      [("number", GoValue.str "1"), ("type", GoValue.str "breakpoint"),
        ("disp", GoValue.str "keep")]
      "1" "breakpoint" "keep" .BP_breakpoint .BP_breakpointDisposition_keep
      rfl rfl rfl rfl rfl rfl rfl rfl rfl rfl rfl rfl rfl rfl rfl rfl rfl
      rfl rfl rfl rfl rfl⟩

/-- C10: a recognised async class whose naive comma-split payload has a
segment without `=` (here the quoted value `"a,b"` of `cmd-param-changed`)
panics with an index out of range in `splitKVList` instead of producing an
event or an error. -/
theorem gdbmi_c10_split_panic :
    asyncTypeFromString "cmd-param-changed" = .Async_cmd_param_changed ∧
    createAsync "cmd-param-changed,param=\"x\",value=\"a,b\"" = .panic ∧
    coordRun coordInit
      [.re (.async 0 "cmd-param-changed,param=\"x\",value=\"a,b\"")] =
      .panic := by
  exact ⟨rfl, rfl, rfl⟩

/-- C6 counterexample: the claim says an unrecognised async class decodes
to an `Unknown` event with the raw payload retained and is never fatal.
For the unrecognised class `foobar` with a parameter list, `createAsync`
drops one byte of the line (the unknown class's registry name is `""`),
the first comma segment `oobar` has no `=`, and `splitKVList` panics —
killing the coordinator goroutine. -/
theorem gdbmi_c6_counterexample :
    createAsync "foobar,id=\"1\"" = .panic ∧
    coordRun coordInit [.re (.async 0 "foobar,id=\"1\"")] = .panic := by
  exact ⟨rfl, rfl⟩

theorem splitKVListGo_cases : ∀ (parts : List (List Char))
    (m : List (String × String)),
    splitKVListGo parts m = .panic ∨ ∃ m2, splitKVListGo parts m = .ok m2 := by
  intro parts
  induction parts with
  | nil => intro m; exact Or.inr ⟨m, rfl⟩
  | cons p rest ih =>
    intro m
    rw [splitKVListGo.eq_def]
    cases hsp : splitOnChar '=' p with
    | nil => left; simp [hsp]
    | cons k rest2 =>
      cases rest2 with
      | nil => left; simp [hsp]
      | cons v1 tail =>
        by_cases hv : v1.length < 2
        · left; simp [hsp, hv]
        · simp only [hsp, hv, if_false]
          exact ih _

theorem splitKVList_cases (l : List Char) :
    splitKVList l = .panic ∨ ∃ m, splitKVList l = .ok m := by
  simp only [splitKVList]
  exact splitKVListGo_cases (splitOnChar ',' l) []

/-- C6 (amended): an unrecognised async class never yields an event: for
every line whose class (the part before the first comma) is not in the
registry, `createAsync` either panics (the `splitKVList` index/slice
panics, which kill the coordinator goroutine) or returns exactly the
`unknown async message` error — and correspondingly the coordinator either
panics or leaves its state unchanged, publishing nothing. -/
theorem gdbmi_c6_unknown_async_dropped (line : String)
    (h : AsyncTypeWithName (String.mk (splitN2Comma line.data).1) = none) :
    (createAsync line = .panic ∨
      createAsync line = .ok (.error ("unknown async message: " ++ line))) ∧
    (∀ (st : CoordSt) (tok : Int),
      coordStep st (CoordIn.re (GdbResp.async tok line)) = .panic ∨
      coordStep st (CoordIn.re (GdbResp.async tok line)) = .ok st) := by
  have ht : asyncTypeFromString (String.mk (splitN2Comma line.data).1) =
      .Async_unknown := by
    simp [asyncTypeFromString, h]
  have hmain : createAsync line = .panic ∨
      createAsync line = .ok (.error ("unknown async message: " ++ line)) := by
    simp only [createAsync, ht]
    by_cases hlen :
        line.data.length < (asyncTypeName GDBAsyncType.Async_unknown).length + 1
    · rw [if_pos hlen]
      exact Or.inl rfl
    · rw [if_neg hlen]
      rcases splitKVList_cases
          (line.data.drop ((asyncTypeName GDBAsyncType.Async_unknown).length + 1))
        with hsp | ⟨m, hsp⟩
      · rw [hsp]
        exact Or.inl rfl
      · rw [hsp]
        exact Or.inr rfl
  refine ⟨hmain, ?_⟩
  intro st tok
  rcases hmain with hc | hc
  · left
    simp [coordStep, hc]
  · right
    simp [coordStep, hc]

/-- Witness for the C6 theorem at the unrecognised-class line `xid="1"`
(the error-and-dropped branch; the counterexample exhibits the panicking
branch). -/
theorem gdbmi_c6_witness :
    AsyncTypeWithName (String.mk (splitN2Comma ("xid=\"1\"" : String).data).1) =
      none ∧
    ((createAsync "xid=\"1\"" = .panic ∨
      createAsync "xid=\"1\"" =
        .ok (.error ("unknown async message: " ++ "xid=\"1\""))) ∧
     (∀ (st : CoordSt) (tok : Int),
       coordStep st (CoordIn.re (GdbResp.async tok "xid=\"1\"")) = .panic ∨
       coordStep st (CoordIn.re (GdbResp.async tok "xid=\"1\"")) = .ok st)) :=
  ⟨rfl, gdbmi_c6_unknown_async_dropped "xid=\"1\"" rfl⟩

/-- C7 counterexample: for the error result line the awaiter's error
message is the raw remainder after the first comma — `msg=` prefix,
quotes and backslash escapes all retained — not the unquoted text the
claim states. -/
theorem gdbmi_c7_counterexample :
    gdbsend_receive
        (.result 0 "error,msg=\"No symbol \\\"x\\\" in current context.\"") =
      .ok (.error "msg=\"No symbol \\\"x\\\" in current context.\"") ∧
    ("msg=\"No symbol \\\"x\\\" in current context.\"" : String) ≠
      "No symbol \"x\" in current context." := by
  exact ⟨rfl, by decide⟩

/-- C7 (amended): the classified `^error` record resolves the awaiting
command with a protocol error whose message is the raw `msg="…"` remainder
(no unquoting, no `msg=` stripping), and the session keeps running: a
command issued afterwards still has its result delivered. -/
theorem gdbmi_c7_error_result :
    parse_gdb_output_line "7^error,msg=\"No symbol \\\"x\\\" in current context.\"" =
      some [.result 7 "error,msg=\"No symbol \\\"x\\\" in current context.\""] ∧
    gdbsend_receive
        (.result 7 "error,msg=\"No symbol \\\"x\\\" in current context.\"") =
      .ok (.error "msg=\"No symbol \\\"x\\\" in current context.\"") ∧
    coordRun coordInit
      [.cmd 7 0,
       .re (.result 7 "error,msg=\"No symbol \\\"x\\\" in current context.\""),
       .cmd 8 1, .re (.result 8 "done")] =
      .ok { pending := [(8, 1), (7, 0)], delivered := [(7, 0), (8, 1)],
            target := [], events := [], logs := [] } := by
  exact ⟨rfl, rfl, rfl⟩

/-- C8 counterexample: the claim says the console line is published on the
stream channel with its payload unescaped.  The classified console record
keeps the quotes and the `\n` escape verbatim, and the coordinator's
`gdb_console_output` case is empty: the record is discarded and nothing at
all is published (the state after processing it is unchanged). -/
theorem gdbmi_c8_counterexample :
    parse_gdb_output_line "~\"hello\\n\"" = some [.consoleOut "\"hello\\n\""] ∧
    coordRun coordInit [.re (.consoleOut "\"hello\\n\"")] = .ok coordInit ∧
    ("\"hello\\n\"" : String) ≠ "hello\n" := by
  exact ⟨rfl, rfl, by decide⟩

/-- C8 (amended): `~"hello\n"` is classified as a console record whose
payload keeps its quotes and escapes; the coordinator discards console
records while still publishing target-output records on the `Target`
channel, and the `(gdb)` prompt line is skipped without any record. -/
theorem gdbmi_c8_console_discarded :
    parse_gdb_output_line "~\"hello\\n\"" = some [.consoleOut "\"hello\\n\""] ∧
    parse_gdb_output_line "(gdb)" = none ∧
    coordRun coordInit
      [.re (.consoleOut "\"hello\\n\""), .re (.targetOut "t")] =
      .ok { pending := [], delivered := [], target := ["t"], events := [],
            logs := [] } := by
  exact ⟨rfl, rfl, rfl⟩

/-- C2 counterexample: the default generator is `time.Now().UnixNano()`
itself — it keeps no counter, so two commands submitted while the wall
clock reads the same nanosecond value get equal tokens, and the tokens on
the wire are not strictly increasing. -/
theorem gdbmi_c2_counterexample :
    sessionTokens [5, 5] = [5, 5] ∧
    ¬ List.Chain' (fun a b => a < b) (sessionTokens [5, 5]) := by
  refine ⟨rfl, ?_⟩
  simp [sessionTokens, timetokenGenerator, List.chain'_cons]

/-- C2 (amended): the tokens on the wire are exactly the wall-clock
readings observed at the successive submissions, so they are strictly
increasing precisely when the clock readings are; the generator itself
adds no monotonicity guarantee. -/
theorem gdbmi_c2_tokens_monotone_iff_clock (clock : List Int)
    (h : List.Chain' (fun a b => a < b) clock) :
    sessionTokens clock = clock ∧
    List.Chain' (fun a b => a < b) (sessionTokens clock) := by
  have he : sessionTokens clock = clock := List.map_id clock
  exact ⟨he, by rw [he]; exact h⟩

/-- Witness for the C2 theorem at the clock trace `[1, 2, 3]`. -/
theorem gdbmi_c2_witness :
    List.Chain' (fun a b => a < b) ([1, 2, 3] : List Int) ∧
    (sessionTokens [1, 2, 3] = [1, 2, 3] ∧
      List.Chain' (fun a b => a < b) (sessionTokens [1, 2, 3])) := by
  have hc : List.Chain' (fun a b => a < b) ([1, 2, 3] : List Int) := by
    simp [List.chain'_cons]
  exact ⟨hc, gdbmi_c2_tokens_monotone_iff_clock [1, 2, 3] hc⟩

theorem scanStr_legal : ∀ (body : List Char), legalBody body = true →
    ∀ rest, scanStr (body ++ '"' :: rest) = (body ++ ['"'], rest) := by
  intro body
  induction body using legalBody.induct
  case case1 =>
    intro _ rest
    rw [scanStr.eq_def]
    simp
  case case2 =>
    intro h
    rw [legalBody.eq_def] at h
    simp at h
  case case3 c2 rest2 ih =>
    intro h rest
    rw [legalBody.eq_def] at h
    simp at h
    rw [List.cons_append, List.cons_append, scanStr.eq_def]
    simp [ih h.2 rest]
  case case4 rest2 h1 =>
    intro h
    rw [legalBody.eq_def] at h
    simp at h
  case case5 rest2 h1 h2 =>
    intro h
    rw [legalBody.eq_def] at h
    simp at h
  case case6 c2 rest2 h1 h2 h3 ih =>
    intro h rest
    rw [legalBody.eq_def] at h
    simp [h1, h2, h3] at h
    rw [List.cons_append, scanStr.eq_def]
    simp [h1, h2, h3, ih h rest]

/-- C4 counterexample: the claim says parsing `"a\nb"` yields the
three-character string with a real newline.  `parseValue` only slices the
first and last byte off the scanner token: the escapes stay verbatim, so
the result is the four-character string `a`,`\`,`n`,`b`. -/
theorem gdbmi_c4_counterexample :
    parse_value 1 "\"a\\nb\"" = .ok (.str "a\\nb") ∧
    ("a\\nb" : String) ≠ "a\nb" := by
  exact ⟨rfl, by decide⟩

/-- C4 (amended): for every quoted string whose body uses only MI's legal
escapes, `parse_value` returns the body with the surrounding quotes
stripped but the escape sequences untouched (no unescaping). -/
theorem gdbmi_c4_quoted_string_raw (body : List Char)
    (h : legalBody body = true) (fuel : Nat) :
    parse_value (fuel + 1) (String.mk ('"' :: body ++ ['"'])) =
      .ok (.str (String.mk body)) := by
  have hs : scanTok ('"' :: (body ++ ['"'])) = ('"' :: (body ++ ['"']), []) := by
    simp [scanTok, List.dropWhile_cons, isWS, scanStr_legal body h]
  simp only [parse_value]
  rw [parseValueF.eq_def]
  simp only [String.mk, List.cons_append] at hs ⊢
  rw [hs]
  simp [List.dropLast_concat, Res.bind]

/-- Witness for the C4 theorem at the body `a\nb` (escaped newline). -/
theorem gdbmi_c4_witness :
    legalBody ['a', '\\', 'n', 'b'] = true ∧
    parse_value 1 (String.mk ('"' :: ['a', '\\', 'n', 'b'] ++ ['"'])) =
      .ok (.str (String.mk ['a', '\\', 'n', 'b'])) := by
  exact ⟨by decide, gdbmi_c4_quoted_string_raw ['a', '\\', 'n', 'b'] (by decide) 0⟩

theorem coordRun_append (l1 l2 : List CoordIn) : ∀ st : CoordSt,
    coordRun st (l1 ++ l2) =
      (coordRun st l1).bind (fun st2 => coordRun st2 l2) := by
  induction l1 with
  | nil => intro st; simp [coordRun, Res.bind]
  | cons i rest ih =>
    intro st
    simp only [List.cons_append, coordRun]
    cases coordStep st i with
    | ok st2 => simpa [Res.bind] using ih st2
    | panic => simp [Res.bind]
    | nofuel => simp [Res.bind]

theorem coordRun_cmds (cmds : List (Int × Nat)) : ∀ st : CoordSt,
    coordRun st (cmds.map (fun p => CoordIn.cmd p.1 p.2)) =
      .ok { st with pending := cmds.foldl (fun m p => (p.1, p.2) :: m) st.pending } := by
  induction cmds with
  | nil => intro st; simp [coordRun]
  | cons p rest ih =>
    intro st
    simp only [List.map_cons, coordRun, coordStep, List.foldl_cons]
    exact ih _

theorem foldl_cons_rev (l : List (Int × Nat)) : ∀ acc,
    l.foldl (fun m p => (p.1, p.2) :: m) acc = l.reverse ++ acc := by
  induction l with
  | nil => intro acc; simp
  | cons p rest ih =>
    intro acc
    simp [List.foldl_cons, ih, List.reverse_cons, List.append_assoc]

theorem find?_reverse_nodup (l : List (Int × Nat)) (t : Int)
    (h : (l.map Prod.fst).Nodup) :
    l.reverse.find? (fun p => p.1 = t) = l.find? (fun p => p.1 = t) := by
  induction l with
  | nil => simp
  | cons a rest ih =>
    simp only [List.map_cons, List.nodup_cons] at h
    obtain ⟨ha, hrest⟩ := h
    rw [List.reverse_cons, List.find?_append, ih hrest]
    by_cases hpa : a.1 = t
    · have hnone : rest.find? (fun p => p.1 = t) = none := by
        apply List.find?_eq_none.mpr
        intro x hx
        simp only [decide_eq_true_eq]
        intro hxt
        exact ha (by rw [← hpa] at hxt; exact List.mem_map.mpr ⟨x, hx, hxt⟩)
      simp [hnone, List.find?_cons, hpa]
    · simp [List.find?_cons, hpa]

theorem coordRun_results (f : Int → Nat) : ∀ (σ : List Int) (st : CoordSt),
    (∀ t ∈ σ, (st.pending.find? (fun p => p.1 = t)).map (fun p => p.2) =
      some (f t)) →
    coordRun st (σ.map (fun t => CoordIn.re (GdbResp.result t "done"))) =
      .ok { st with delivered := st.delivered ++ σ.map (fun t => (t, f t)) } := by
  intro σ
  induction σ with
  | nil => intro st _; simp [coordRun]
  | cons t rest ih =>
    intro st hall
    have step : coordStep st (CoordIn.re (GdbResp.result t "done")) =
        .ok { st with delivered := st.delivered ++ [(t, f t)] } := by
      simp only [coordStep]
      rw [hall t (by simp)]
    simp only [List.map_cons, coordRun, step]
    rw [ih { st with delivered := st.delivered ++ [(t, f t)] }
      (fun u hu => hall u (by simp [hu]))]
    simp [List.append_assoc]

/-- C1: with K in-flight commands carrying pairwise distinct tokens, the
coordinator delivers the result records — arriving in an arbitrary
permutation of those tokens — each to the reply channel of exactly the
command bearing the same token (and publishes nothing else). -/
theorem gdbmi_c1_correlation (cmds : List (Int × Nat))
    (hnd : (cmds.map Prod.fst).Nodup) (σ : List Int)
    (hperm : σ.Perm (cmds.map Prod.fst)) :
    coordRun coordInit
        (cmds.map (fun p => CoordIn.cmd p.1 p.2) ++
          σ.map (fun t => CoordIn.re (GdbResp.result t "done"))) =
      .ok { pending := cmds.reverse,
            delivered := σ.map (fun t => (t, tokenOwner cmds t)),
            target := [], events := [], logs := [] } := by
  rw [coordRun_append, coordRun_cmds cmds coordInit]
  have hpend : cmds.foldl (fun m p => (p.1, p.2) :: m) coordInit.pending =
      cmds.reverse := by
    rw [foldl_cons_rev]
    simp [coordInit]
  have hlook : ∀ t ∈ σ,
      ((cmds.reverse.find? (fun p => p.1 = t)).map (fun p => p.2)) =
        some (tokenOwner cmds t) := by
    intro t ht
    have htm : t ∈ cmds.map Prod.fst := hperm.subset ht
    obtain ⟨x, hx, hxt⟩ := List.mem_map.mp htm
    have hsome : (cmds.find? (fun p => p.1 = t)).isSome := by
      apply List.find?_isSome.mpr
      exact ⟨x, hx, by simp [hxt]⟩
    rw [find?_reverse_nodup cmds t hnd]
    cases hf : cmds.find? (fun p => p.1 = t) with
    | none => rw [hf] at hsome; simp at hsome
    | some y => simp [tokenOwner, hf]
  have := coordRun_results (tokenOwner cmds) σ
    { pending := cmds.reverse, delivered := [], target := [],
      events := [], logs := [] }
    (by intro t ht; exact hlook t ht)
  simp only [hpend, Res.bind]
  simp only [coordInit] at this ⊢
  rw [this]
  simp

/-- Witness for the C1 theorem: two commands with tokens 1 and 2, results
arriving in the opposite order. -/
theorem gdbmi_c1_correlation_witness :
    ((([(1, 10), (2, 20)] : List (Int × Nat)).map Prod.fst).Nodup ∧
      ([2, 1] : List Int).Perm ([(1, 10), (2, 20)].map Prod.fst)) ∧
    coordRun coordInit
        ([(1, 10), (2, 20)].map (fun p => CoordIn.cmd p.1 p.2) ++
          ([2, 1] : List Int).map
            (fun t => CoordIn.re (GdbResp.result t "done"))) =
      .ok { pending := [(2, 20), (1, 10)],
            delivered := [(2, 20), (1, 10)],
            target := [], events := [], logs := [] } := by
  constructor
  · exact ⟨by decide, by decide⟩
  · have := gdbmi_c1_correlation [(1, 10), (2, 20)] (by decide) [2, 1]
      (by decide)
    simpa [tokenOwner] using this

theorem matchHeadC_iff (c : Char) (l : List Char) :
    matchHeadC c l = true ↔ l.head? = some c := by
  cases l <;> simp [matchHeadC]

theorem head?_dropWhile_digit : ∀ (l : List Char) (x : Char),
    (l.dropWhile Char.isDigit).head? = some x → x.isDigit = false := by
  intro l
  induction l with
  | nil => simp
  | cons c rest ih =>
    intro x
    by_cases hc : c.isDigit
    · rw [List.dropWhile_cons]
      simp only [hc, if_true]
      exact ih x
    · rw [List.dropWhile_cons]
      simp only [hc, Bool.false_eq_true, if_false, List.head?_cons,
        Option.some.injEq]
      intro he
      rw [← he]
      simpa using hc

theorem matchTokC_iff (c : Char) (hc : c.isDigit = false) :
    ∀ l, matchTokC c l = true ↔ (l.dropWhile Char.isDigit).head? = some c := by
  intro l
  induction l with
  | nil => simp [matchTokC]
  | cons d rest ih =>
    by_cases hd : d.isDigit
    · have hdc : ¬ d = c := fun he => by
        rw [he, hc] at hd
        exact absurd hd (by simp)
      rw [List.dropWhile_cons]
      simp [matchTokC, hd, hdc, ih]
    · rw [List.dropWhile_cons]
      simp [matchTokC, hd]

theorem mkTokenized_shape (mk : Int → String → GdbResp) (s : String) :
    ∃ a b, mkTokenized mk s = mk a b := by
  simp only [mkTokenized]
  by_cases h : s.data.takeWhile Char.isDigit = []
  · rw [if_pos h]
    exact ⟨_, _, rfl⟩
  · rw [if_neg h]
    cases hp : parseInt64 (s.data.takeWhile Char.isDigit) with
    | some tk => exact ⟨_, _, rfl⟩
    | none => exact ⟨_, _, rfl⟩


/-- C3 counterexample: the delimiter regex is unanchored, so the line
`x(gdb)y` — which is not the exact line `(gdb)` and matches none of the
seven sentinels — is consumed as a prompt and produces no record at all,
where the claim demands one Raw record. -/
theorem gdbmi_c3_counterexample :
    parse_gdb_output_line "x(gdb)y" = none ∧
    ("x(gdb)y" : String) ≠ "(gdb)" ∧
    gdb_responses.filter (fun g => g.regexMatch "x(gdb)y") = [] := by
  exact ⟨rfl, by decide, rfl⟩

/-- C3 (amended): a non-empty line containing the substring `(gdb)` is
treated as the prompt and skipped (no record); every other non-empty line
yields exactly one record, and that record is the raw fallback
`gdb_target_output` carrying the whole line iff none of the seven sentinel
regexes matches. -/
theorem gdbmi_c3_classifier_total (s : String) (h : s ≠ "") :
    (gdb_delim_match s = true ∧ parse_gdb_output_line s = none) ∨
    (gdb_delim_match s = false ∧ ∃ r, parse_gdb_output_line s = some [r] ∧
      ((gdb_responses.filter (fun g => g.regexMatch s) = []) ↔
        r = GdbResp.targetOut s)) := by
  by_cases hd : gdb_delim_match s
  · exact Or.inl ⟨hd, by simp [parse_gdb_output_line, hd]⟩
  · refine Or.inr ⟨by simpa using hd, ?_⟩
    cases hl : s.data with
    | nil => exact absurd (String.ext (hl.trans rfl)) h
    | cons c t =>
      by_cases hcd : c.isDigit
      · -- leading digit: only the token-prefixed sentinels can match
        have hhead : ∀ x : Char, x.isDigit = false → matchHeadC x s.data = false := by
          intro x hx
          rw [hl]
          simp only [matchHeadC]
          refine decide_eq_false ?_
          intro he
          rw [he] at hcd
          rw [hx] at hcd
          exact absurd hcd (by simp)
        have htok : ∀ x : Char, x.isDigit = false →
            (matchTokC x s.data = true ↔
              (t.dropWhile Char.isDigit).head? = some x) := by
          intro x hx
          rw [hl, matchTokC_iff x hx, List.dropWhile_cons]
          simp [hcd]
        cases hA : (t.dropWhile Char.isDigit).head? with
        | none =>
          have hf : ∀ x : Char, x.isDigit = false →
              matchTokC x s.data = false := by
            intro x hx
            cases hmt : matchTokC x s.data with
            | false => rfl
            | true =>
              have hx2 := (htok x hx).mp hmt
              rw [hA] at hx2
              exact absurd hx2 (by simp)
          have hfil : gdb_responses.filter (fun g => g.regexMatch s) = [] := by
            simp [gdb_responses, result_record, console_output, target_output,
              log_output, notify_async_output, exec_async_output,
              status_async_output, List.filter_cons,
              hf '^' (by decide), hf '=' (by decide), hf '*' (by decide),
              hf '+' (by decide), hhead '~' (by decide), hhead '@' (by decide),
              hhead '&' (by decide)]
          refine ⟨GdbResp.targetOut s, ?_, ?_⟩
          · simp [parse_gdb_output_line, hd, hfil]
          · simp [hfil]
        | some a =>
          have haD := head?_dropWhile_digit t a hA
          have hfx : ∀ x : Char, x.isDigit = false →
              (matchTokC x s.data = true ↔ a = x) := by
            intro x hx
            rw [htok x hx, hA]
            simp
          have htrue : matchTokC a s.data = true := (hfx a haD).mpr rfl
          have hfalse : ∀ x : Char, x.isDigit = false → ¬ a = x →
              matchTokC x s.data = false := by
            intro x hx hne
            cases hmt : matchTokC x s.data with
            | false => rfl
            | true => exact absurd ((hfx x hx).mp hmt) hne
          by_cases ha1 : a = '^'
          · subst ha1
            have hfil : gdb_responses.filter (fun g => g.regexMatch s) =
                [result_record] := by
              simp [gdb_responses, result_record, console_output, target_output,
                log_output, notify_async_output, exec_async_output,
                status_async_output, List.filter_cons, htrue,
                hfalse '=' (by decide) (by decide),
                hfalse '*' (by decide) (by decide),
                hfalse '+' (by decide) (by decide),
                hhead '~' (by decide), hhead '@' (by decide),
                hhead '&' (by decide)]
            refine ⟨mkTokenized GdbResp.result s, ?_, ?_⟩
            · simp [parse_gdb_output_line, hd, hfil, result_record]
            · rw [hfil]
              refine iff_of_false (by simp) ?_
              obtain ⟨a', b', hab⟩ := mkTokenized_shape GdbResp.result s
              rw [hab]
              simp
          · by_cases ha2 : a = '='
            · subst ha2
              have hfil : gdb_responses.filter (fun g => g.regexMatch s) =
                  [notify_async_output] := by
                simp [gdb_responses, result_record, console_output,
                  target_output, log_output, notify_async_output,
                  exec_async_output, status_async_output, List.filter_cons,
                  htrue, hfalse '^' (by decide) (by decide),
                  hfalse '*' (by decide) (by decide),
                  hfalse '+' (by decide) (by decide),
                  hhead '~' (by decide), hhead '@' (by decide),
                  hhead '&' (by decide)]
              refine ⟨mkTokenized GdbResp.async s, ?_, ?_⟩
              · simp [parse_gdb_output_line, hd, hfil, notify_async_output]
              · rw [hfil]
                refine iff_of_false (by simp) ?_
                obtain ⟨a', b', hab⟩ := mkTokenized_shape GdbResp.async s
                rw [hab]
                simp
            · by_cases ha3 : a = '*'
              · subst ha3
                have hfil : gdb_responses.filter (fun g => g.regexMatch s) =
                    [exec_async_output] := by
                  simp [gdb_responses, result_record, console_output,
                    target_output, log_output, notify_async_output,
                    exec_async_output, status_async_output, List.filter_cons,
                    htrue, hfalse '^' (by decide) (by decide),
                    hfalse '=' (by decide) (by decide),
                    hfalse '+' (by decide) (by decide),
                    hhead '~' (by decide), hhead '@' (by decide),
                    hhead '&' (by decide)]
                refine ⟨mkTokenized GdbResp.async s, ?_, ?_⟩
                · simp [parse_gdb_output_line, hd, hfil, exec_async_output]
                · rw [hfil]
                  refine iff_of_false (by simp) ?_
                  obtain ⟨a', b', hab⟩ := mkTokenized_shape GdbResp.async s
                  rw [hab]
                  simp
              · by_cases ha4 : a = '+'
                · subst ha4
                  have hfil : gdb_responses.filter (fun g => g.regexMatch s) =
                      [status_async_output] := by
                    simp [gdb_responses, result_record, console_output,
                      target_output, log_output, notify_async_output,
                      exec_async_output, status_async_output, List.filter_cons,
                      htrue, hfalse '^' (by decide) (by decide),
                      hfalse '=' (by decide) (by decide),
                      hfalse '*' (by decide) (by decide),
                      hhead '~' (by decide), hhead '@' (by decide),
                      hhead '&' (by decide)]
                  refine ⟨mkTokenized GdbResp.async s, ?_, ?_⟩
                  · simp [parse_gdb_output_line, hd, hfil, status_async_output]
                  · rw [hfil]
                    refine iff_of_false (by simp) ?_
                    obtain ⟨a', b', hab⟩ := mkTokenized_shape GdbResp.async s
                    rw [hab]
                    simp
                · have hfil : gdb_responses.filter
                      (fun g => g.regexMatch s) = [] := by
                    simp [gdb_responses, result_record, console_output,
                      target_output, log_output, notify_async_output,
                      exec_async_output, status_async_output, List.filter_cons,
                      hfalse '^' (by decide) ha1, hfalse '=' (by decide) ha2,
                      hfalse '*' (by decide) ha3, hfalse '+' (by decide) ha4,
                      hhead '~' (by decide), hhead '@' (by decide),
                      hhead '&' (by decide)]
                  refine ⟨GdbResp.targetOut s, ?_, ?_⟩
                  · simp [parse_gdb_output_line, hd, hfil]
                  · simp [hfil]
      · -- first character is not a digit: it alone decides the sentinel
        have hhead2 : ∀ x : Char, matchHeadC x s.data = decide (c = x) := by
          intro x
          rw [hl]
          rfl
        have htok2 : ∀ x : Char, x.isDigit = false →
            (matchTokC x s.data = true ↔ c = x) := by
          intro x hx
          rw [hl, matchTokC_iff x hx, List.dropWhile_cons]
          simp [hcd]
        have hfalse2 : ∀ x : Char, x.isDigit = false → ¬ c = x →
            matchTokC x s.data = false := by
          intro x hx hne
          cases hmt : matchTokC x s.data with
          | false => rfl
          | true => exact absurd ((htok2 x hx).mp hmt) hne
        by_cases hc1 : c = '^'
        · subst hc1
          have htrue2 : matchTokC '^' s.data = true :=
            (htok2 '^' (by decide)).mpr rfl
          have hfil : gdb_responses.filter (fun g => g.regexMatch s) =
              [result_record] := by
            simp [gdb_responses, result_record, console_output, target_output,
              log_output, notify_async_output, exec_async_output,
              status_async_output, List.filter_cons, htrue2, hhead2,
              hfalse2 '=' (by decide) (by decide),
              hfalse2 '*' (by decide) (by decide),
              hfalse2 '+' (by decide) (by decide)]
          refine ⟨mkTokenized GdbResp.result s, ?_, ?_⟩
          · simp [parse_gdb_output_line, hd, hfil, result_record]
          · rw [hfil]
            refine iff_of_false (by simp) ?_
            obtain ⟨a', b', hab⟩ := mkTokenized_shape GdbResp.result s
            rw [hab]
            simp
        · by_cases hc2 : c = '~'
          · subst hc2
            have hfil : gdb_responses.filter (fun g => g.regexMatch s) =
                [console_output] := by
              simp [gdb_responses, result_record, console_output,
                target_output, log_output, notify_async_output,
                exec_async_output, status_async_output, List.filter_cons,
                hhead2, hfalse2 '^' (by decide) (by decide),
                hfalse2 '=' (by decide) (by decide),
                hfalse2 '*' (by decide) (by decide),
                hfalse2 '+' (by decide) (by decide)]
            refine ⟨mkStream GdbResp.consoleOut s, ?_, ?_⟩
            · simp [parse_gdb_output_line, hd, hfil, console_output]
            · rw [hfil]
              refine iff_of_false (by simp) (by simp [mkStream])
          · by_cases hc3 : c = '@'
            · subst hc3
              have hfil : gdb_responses.filter (fun g => g.regexMatch s) =
                  [target_output] := by
                simp [gdb_responses, result_record, console_output,
                  target_output, log_output, notify_async_output,
                  exec_async_output, status_async_output, List.filter_cons,
                  hhead2, hfalse2 '^' (by decide) (by decide),
                  hfalse2 '=' (by decide) (by decide),
                  hfalse2 '*' (by decide) (by decide),
                  hfalse2 '+' (by decide) (by decide)]
              refine ⟨mkStream GdbResp.targetOut s, ?_, ?_⟩
              · simp [parse_gdb_output_line, hd, hfil, target_output]
              · rw [hfil]
                refine iff_of_false (by simp) ?_
                simp only [mkStream, GdbResp.targetOut.injEq]
                intro he
                have hq := congrArg String.data he
                simp only at hq
                rw [hl] at hq
                simp only [List.drop_one, List.tail_cons] at hq
                exact List.cons_ne_self _ _ hq.symm
            · by_cases hc4 : c = '&'
              · subst hc4
                have hfil : gdb_responses.filter (fun g => g.regexMatch s) =
                    [log_output] := by
                  simp [gdb_responses, result_record, console_output,
                    target_output, log_output, notify_async_output,
                    exec_async_output, status_async_output, List.filter_cons,
                    hhead2, hfalse2 '^' (by decide) (by decide),
                    hfalse2 '=' (by decide) (by decide),
                    hfalse2 '*' (by decide) (by decide),
                    hfalse2 '+' (by decide) (by decide)]
                refine ⟨mkStream GdbResp.logOut s, ?_, ?_⟩
                · simp [parse_gdb_output_line, hd, hfil, log_output]
                · rw [hfil]
                  refine iff_of_false (by simp) (by simp [mkStream])
              · by_cases hc5 : c = '='
                · subst hc5
                  have htrue2 : matchTokC '=' s.data = true :=
                    (htok2 '=' (by decide)).mpr rfl
                  have hfil : gdb_responses.filter (fun g => g.regexMatch s) =
                      [notify_async_output] := by
                    simp [gdb_responses, result_record, console_output,
                      target_output, log_output, notify_async_output,
                      exec_async_output, status_async_output, List.filter_cons,
                      htrue2, hhead2, hfalse2 '^' (by decide) (by decide),
                      hfalse2 '*' (by decide) (by decide),
                      hfalse2 '+' (by decide) (by decide)]
                  refine ⟨mkTokenized GdbResp.async s, ?_, ?_⟩
                  · simp [parse_gdb_output_line, hd, hfil, notify_async_output]
                  · rw [hfil]
                    refine iff_of_false (by simp) ?_
                    obtain ⟨a', b', hab⟩ := mkTokenized_shape GdbResp.async s
                    rw [hab]
                    simp
                · by_cases hc6 : c = '*'
                  · subst hc6
                    have htrue2 : matchTokC '*' s.data = true :=
                      (htok2 '*' (by decide)).mpr rfl
                    have hfil : gdb_responses.filter
                        (fun g => g.regexMatch s) = [exec_async_output] := by
                      simp [gdb_responses, result_record, console_output,
                        target_output, log_output, notify_async_output,
                        exec_async_output, status_async_output,
                        List.filter_cons, htrue2, hhead2,
                        hfalse2 '^' (by decide) (by decide),
                        hfalse2 '=' (by decide) (by decide),
                        hfalse2 '+' (by decide) (by decide)]
                    refine ⟨mkTokenized GdbResp.async s, ?_, ?_⟩
                    · simp [parse_gdb_output_line, hd, hfil, exec_async_output]
                    · rw [hfil]
                      refine iff_of_false (by simp) ?_
                      obtain ⟨a', b', hab⟩ := mkTokenized_shape GdbResp.async s
                      rw [hab]
                      simp
                  · by_cases hc7 : c = '+'
                    · subst hc7
                      have htrue2 : matchTokC '+' s.data = true :=
                        (htok2 '+' (by decide)).mpr rfl
                      have hfil : gdb_responses.filter
                          (fun g => g.regexMatch s) = [status_async_output] := by
                        simp [gdb_responses, result_record, console_output,
                          target_output, log_output, notify_async_output,
                          exec_async_output, status_async_output,
                          List.filter_cons, htrue2, hhead2,
                          hfalse2 '^' (by decide) (by decide),
                          hfalse2 '=' (by decide) (by decide),
                          hfalse2 '*' (by decide) (by decide)]
                      refine ⟨mkTokenized GdbResp.async s, ?_, ?_⟩
                      · simp [parse_gdb_output_line, hd, hfil,
                          status_async_output]
                      · rw [hfil]
                        refine iff_of_false (by simp) ?_
                        obtain ⟨a', b', hab⟩ := mkTokenized_shape GdbResp.async s
                        rw [hab]
                        simp
                    · have hfil : gdb_responses.filter
                          (fun g => g.regexMatch s) = [] := by
                        simp [gdb_responses, result_record, console_output,
                          target_output, log_output, notify_async_output,
                          exec_async_output, status_async_output,
                          List.filter_cons, hhead2,
                          hfalse2 '^' (by decide) hc1,
                          hfalse2 '=' (by decide) hc5,
                          hfalse2 '*' (by decide) hc6,
                          hfalse2 '+' (by decide) hc7, hc2, hc3, hc4]
                      refine ⟨GdbResp.targetOut s, ?_, ?_⟩
                      · simp [parse_gdb_output_line, hd, hfil]
                      · simp [hfil]

/-- Witness for the C3 theorem at the console line `~hi`. -/
theorem gdbmi_c3_witness :
    ("~hi" : String) ≠ "" ∧
    ((gdb_delim_match "~hi" = true ∧ parse_gdb_output_line "~hi" = none) ∨
     (gdb_delim_match "~hi" = false ∧
       ∃ r, parse_gdb_output_line "~hi" = some [r] ∧
         ((gdb_responses.filter (fun g => g.regexMatch "~hi") = []) ↔
           r = GdbResp.targetOut "~hi"))) :=
  ⟨by decide, gdbmi_c3_classifier_total "~hi" (by decide)⟩
